import Mathlib

/-!
Verification of the performance-analyzer load-generation core: the worker
lifecycle and request executor (internal/model/entity/worker.go), the metrics
aggregator (internal/model/entity/worker_status.go), and the bearer-token
cache (pkg/tokens/token.go), shallowly embedded in Lean.

External effects are passed in as explicit parameters: the HTTP transport is
modelled by the outcome it would produce (a latency, a transport error, a
token-endpoint response), persistence callbacks by the success of each call
site, and the wall clock by Int nanosecond instants. float64 statistics are
modelled as rationals; time.Duration values as Int nanoseconds.
-/

namespace PerformanceAnalyzer

/-! ### Status — internal/model/entity/worker_status.go

The Go type is a string restricted by SetStatus to the four constants below;
only those four values ever reach SetStatus in the program, so the status is
embedded as an inductive over exactly those constants. -/

inductive Status
  | StatusCreated
  | StatusRunning
  | StatusFinished
  | StatusFailed
deriving DecidableEq

open Status

/-! ### Metrics — internal/model/entity/worker_status.go -/

structure Metrics where
  MaxLatency : ℚ
  Percentiles : List (String × ℚ)
  TotalRequests : Nat
  FailedRequests : Nat
  ErrorRate : ℚ
  latencies : List Int
deriving DecidableEq

/-- NewMetrics: zero counters and an empty (initialized) Percentiles map. -/
def NewMetrics : Metrics :=
  { MaxLatency := 0, Percentiles := [], TotalRequests := 0, FailedRequests := 0,
    ErrorRate := 0, latencies := [] }

def P50 : String := "50"
def P95 : String := "95"
def P99 : String := "99"
def P999 : String := "99.9"

def AddLatency (m : Metrics) (latency : Int) : Metrics :=
  { m with latencies := m.latencies ++ [latency] }

def IncrementTotalRequests (m : Metrics) : Metrics :=
  { m with TotalRequests := m.TotalRequests + 1 }

def IncrementFailedRequests (m : Metrics) : Metrics :=
  { m with FailedRequests := m.FailedRequests + 1 }

/-- time.Second in nanoseconds. -/
def timeSecond : Int := 1000000000

def CalculateMaxLatency (m : Metrics) : Metrics :=
  { m with MaxLatency := ((m.latencies.foldl max 0 : Int) : ℚ) / (timeSecond : ℚ) }

def CalculateErrorRate (m : Metrics) : Metrics :=
  if m.TotalRequests = 0 then { m with ErrorRate := 0 }
  else { m with ErrorRate := (m.FailedRequests : ℚ) / (m.TotalRequests : ℚ) }

/-- Insertion used to model a Go map assignment over an association list. -/
def mapSet (m : List (String × ℚ)) (k : String) (v : ℚ) : List (String × ℚ) :=
  if m.any (fun p => p.1 = k) then m.map (fun p => if p.1 = k then (k, v) else p)
  else m ++ [(k, v)]

def insertSorted (x : ℚ) : List ℚ → List ℚ
  | [] => [x]
  | y :: ys => if x ≤ y then x :: y :: ys else y :: insertSorted x ys

/-- sortedCopy from the stats dependency: an ascending copy of the input. -/
def sortedCopy (l : List ℚ) : List ℚ := l.foldr insertSorted []

/-- stats.Percentile (github.com/montanaflynn/stats): empty input is an
error, a single sample is returned as every percentile, out-of-range ranks
are errors; otherwise the index percent/100*length selects an element of the
sorted copy (whole index) or the mean of the two adjacent elements
(fractional index). int truncation of the positive index is Nat division. -/
def statsPercentile (input : List ℚ) (percent : ℚ) : Except String ℚ :=
  if input.length = 0 then
    .error "Input must not be empty"
  else if input.length = 1 then
    .ok input.headI
  else if percent ≤ 0 ∨ percent > 100 then
    .error "Input is outside of range"
  else
    let c := sortedCopy input
    let index : ℚ := percent / 100 * (input.length : ℚ)
    if index.den = 1 then
      .ok (c.getD (index.num.toNat - 1) 0)
    else if 1 < index then
      let i : Nat := index.num.toNat / index.den
      .ok ((c.getD (i - 1) 0 + c.getD i 0) / 2)
    else
      .error "Input is outside of range"

/-- strconv.ParseFloat restricted to the four PercentileRank constants, the
only rank strings occurring in the program. -/
def parseFloatRank : String → Except String ℚ
  | "50" => .ok 50
  | "95" => .ok 95
  | "99" => .ok 99
  | "99.9" => .ok (999 / 10)
  | _ => .error "invalid syntax"

/-- The loop body of Metrics.CalculatePercentiles: on the first parse or
percentile error the loop stops and the error is returned; entries written
before the error persist (Go map mutation in place). -/
def CalculatePercentilesAux (latencies : List ℚ) (percentiles : List (String × ℚ)) :
    List String → List (String × ℚ) × Option String
  | [] => (percentiles, none)
  | rank :: rest =>
    match parseFloatRank rank with
    | .error e => (percentiles, some e)
    | .ok rankFloat =>
      match statsPercentile latencies rankFloat with
      | .error e => (percentiles, some e)
      | .ok result => CalculatePercentilesAux latencies (mapSet percentiles rank result) rest

/-- Metrics.CalculatePercentiles: converts latencies to seconds, then fills
the Percentiles map rank by rank; returns the first error, if any. -/
def CalculatePercentiles (m : Metrics) (ranks : List String) :
    Metrics × Option String :=
  let latencies := m.latencies.map (fun (d : Int) => (d : ℚ) / (timeSecond : ℚ))
  let r := CalculatePercentilesAux latencies m.Percentiles ranks
  ({ m with Percentiles := r.1 }, r.2)

/-! ### Request construction and execution — internal/model/entity/worker.go -/

def MethodGet : String := "GET"
def MethodPost : String := "POST"

structure Request where
  method : String
  url : String
  body : Option String
  headers : List (String × String)
deriving DecidableEq

/-- Worker.createRequest. http.NewRequest is called with a nil body (third
argument nil in the source), so the built request never carries a body; its
possible failure is the newRequestOk parameter. When a TokenManager is
present, its GetToken outcome is the tokenManager parameter: an error aborts
request construction, a token is attached as a bearer Authorization header. -/
def createRequest (tokenManager : Option (Except String String)) (newRequestOk : Bool)
    (method url : String) : Except Unit Request :=
  if newRequestOk = false then .error ()
  else
    let req : Request := { method := method, url := url, body := none, headers := [] }
    match tokenManager with
    | none =>
      .ok { req with headers := req.headers ++ [("Content-Type", "application/json")] }
    | some (Except.error _) => .error ()
    | some (Except.ok token) =>
      .ok { req with headers := req.headers ++
              [("Authorization", "Bearer " ++ token), ("Content-Type", "application/json")] }

/-- Worker.get, metrics-visible behavior: a request-construction failure
returns with no metrics update; otherwise TotalRequests is incremented after
client.Do returns, then either FailedRequests is incremented (transport
error) or the measured latency is recorded (a response was received). -/
def getExec (m : Metrics) (createResult : Except Unit Request)
    (doResult : Except Unit Int) : Metrics :=
  match createResult with
  | .error _ => m
  | .ok _ =>
    let m1 := IncrementTotalRequests m
    match doResult with
    | .error _ => IncrementFailedRequests m1
    | .ok latency => AddLatency m1 latency

/-- Worker.post, metrics-visible behavior: the function only logs; it never
touches the Metrics aggregator in any branch. -/
def postExec (m : Metrics) (createResult : Except Unit Request)
    (doResult : Except Unit Int) : Metrics :=
  match createResult with
  | .error _ => m
  | .ok _ =>
    match doResult with
    | .error _ => m
    | .ok _ => m

/-- The request Worker.post builds: the source (worker.go:170) passes the
literal method string "GET" to createRequest. -/
def postCreateRequest (tokenManager : Option (Except String String)) (newRequestOk : Bool)
    (url : String) : Except Unit Request :=
  createRequest tokenManager newRequestOk "GET" url

/-- The method dispatch in the body of Worker.run for one work token:
GET and POST dispatch to the respective executor, anything else is a no-op. -/
def runOnce (httpMethod : String) (m : Metrics) (createResult : Except Unit Request)
    (doResult : Except Unit Int) : Metrics :=
  if httpMethod = MethodGet then getExec m createResult doResult
  else if httpMethod = MethodPost then postExec m createResult doResult
  else m

/-- A normally completed run consumes every queued work token, invoking the
executor once per token. Metrics operations are individually mutex-guarded
and counter updates commute, so the concurrent interleaving is modelled as a
fold over the per-invocation outcomes. -/
def runConsume (httpMethod : String) (m : Metrics)
    (outcomes : List (Except Unit Request × Except Unit Int)) : Metrics :=
  outcomes.foldl (fun acc o => runOnce httpMethod acc o.1 o.2) m

def isOkE (x : Except Unit Request) : Bool :=
  match x with
  | .ok _ => true
  | .error _ => false

/-! ### Worker.Start — internal/model/entity/worker.go

Start is embedded as a trace-producing function. The external inputs are:
whether each updateStatusFunc / updateMetricsFunc call site succeeds, which
arm of the select fires (cancelled), and the worker's Metrics at the moment
the select resolves (runMetrics). Events record, in program order, every
persistence-callback invocation, every stored status, the launch of the
worker pool, and the metrics-callback invocation. -/

inductive Event
  | updateStatus (s : Status) (ok : Bool)
  | setStatus (s : Status)
  | spawn (n : Nat)
  | updateMetrics (ok : Bool)
deriving DecidableEq

structure StartInput where
  concurrency : Nat
  cbRunning : Bool
  cancelled : Bool
  cbFinished : Bool
  cbFinal : Bool
  cbMetrics : Bool
  runMetrics : Metrics
deriving DecidableEq

structure StartResult where
  events : List Event
  finalMetrics : Option Metrics
  workerMetrics : Metrics
deriving DecidableEq

/-- The rank list Start passes to CalculatePercentiles. -/
def percentileRanks : List String := [P50, P95, P99, P999]

/-- Worker.Start. Mirrors the source control flow: an initial Running
callback whose failure returns before anything else; a deferred block that
reports and stores the final status (Finished on normal completion, Failed
on cancellation) on every exit path below it; pool launch; the select
between completion and ctx.Done; an unconditional Finished callback+store
after the select; percentile computation whose failure returns early; max
latency and error rate; and the metrics callback. -/
def Start (w : StartInput) : StartResult :=
  if w.cbRunning = false then
    { events := [Event.updateStatus StatusRunning false],
      finalMetrics := none, workerMetrics := w.runMetrics }
  else
    let completedSuccessfully : Bool := ! w.cancelled
    let finalStatus := if completedSuccessfully then StatusFinished else StatusFailed
    let deferEvents := [Event.updateStatus finalStatus w.cbFinal, Event.setStatus finalStatus]
    let pre := [Event.updateStatus StatusRunning true, Event.setStatus StatusRunning,
                Event.spawn w.concurrency]
    if w.cbFinished = false then
      { events := pre ++ [Event.updateStatus StatusFinished false] ++ deferEvents,
        finalMetrics := none, workerMetrics := w.runMetrics }
    else
      let pr := CalculatePercentiles w.runMetrics percentileRanks
      match pr.2 with
      | some _ =>
        { events := pre ++ [Event.updateStatus StatusFinished true,
                            Event.setStatus StatusFinished] ++ deferEvents,
          finalMetrics := none, workerMetrics := pr.1 }
      | none =>
        let m2 := CalculateMaxLatency pr.1
        let m3 := CalculateErrorRate m2
        { events := pre ++ [Event.updateStatus StatusFinished true,
                            Event.setStatus StatusFinished,
                            Event.updateMetrics w.cbMetrics] ++ deferEvents,
          finalMetrics := some m3, workerMetrics := m3 }

/-- The sequence of status values stored in the worker: the initial Created
from NewWorker followed by every SetStatus call of the run. -/
def storedStatuses (r : StartResult) : List Status :=
  StatusCreated :: r.events.filterMap (fun e =>
    match e with
    | Event.setStatus s => some s
    | _ => none)

/-- Whether the worker pool was launched. -/
def spawned (r : StartResult) : Bool :=
  r.events.any (fun e =>
    match e with
    | Event.spawn _ => true
    | _ => false)

/-- Whether updateMetricsFunc (onMetricsReady) was invoked. -/
def metricsCbInvoked (r : StartResult) : Bool :=
  r.events.any (fun e =>
    match e with
    | Event.updateMetrics _ => true
    | _ => false)

/-- A run whose cancellation signal fires before any work completes: all
callbacks succeed, the select resolves on ctx.Done, and the metrics are
still the fresh NewMetrics. -/
def cancelledRun : StartInput :=
  { concurrency := 2, cbRunning := true, cancelled := true, cbFinished := true,
    cbFinal := true, cbMetrics := true, runMetrics := NewMetrics }

/-- A run whose initial Running persistence callback fails. -/
def abortedRun : StartInput :=
  { concurrency := 3, cbRunning := false, cancelled := false, cbFinished := true,
    cbFinal := true, cbMetrics := true, runMetrics := NewMetrics }

/-- A run that completes normally but recorded no latencies. -/
def emptyRun : StartInput :=
  { concurrency := 1, cbRunning := true, cancelled := false, cbFinished := true,
    cbFinal := true, cbMetrics := true, runMetrics := NewMetrics }

/-- A successfully constructed request used as a concrete executor input. -/
def requestEx : Request :=
  { method := "GET", url := "https://example.com", body := none, headers := [] }

/-! ### TokenManager — pkg/tokens/token.go -/

structure Token where
  Value : String
  ExpiresAt : Int
deriving DecidableEq

/-- The token endpoint's observable response: none models a transport error,
otherwise the HTTP status code and the decoded body (none if malformed). -/
structure TokenResponse where
  statusCode : Nat
  body : Option (String × Int)
deriving DecidableEq

/-- time.Time.After: strict comparison. -/
def timeAfter (a b : Int) : Bool := decide (b < a)

/-- TokenManager.requestNewToken: http.NewRequest failure, transport error,
non-200 status, and an undecodable body each yield an error; otherwise the
decoded token value and expiry form the new Token. -/
def requestNewToken (newRequestOk : Bool) (resp : Option TokenResponse) :
    Except String Token :=
  if newRequestOk = false then .error "invalid request"
  else
    match resp with
    | none => .error "transport error"
    | some r =>
      if r.statusCode ≠ 200 then .error "unexpected status code"
      else
        match r.body with
        | none => .error "malformed response body"
        | some tb => .ok { Value := tb.1, ExpiresAt := tb.2 }

/-- TokenManager.GetToken under the instance mutex: one serialized call.
Returns the result, the cache state after the call, and the number of
refresh requests performed (0 or 1). A refresh happens exactly when now is
strictly after the cached expiry; a failed refresh leaves the cache
untouched; a successful refresh replaces the cached token wholesale. -/
def GetToken (tok : Token) (now : Int) (newRequestOk : Bool)
    (resp : Option TokenResponse) : Except String String × Token × Nat :=
  if timeAfter now tok.ExpiresAt then
    match requestNewToken newRequestOk resp with
    | .error e => (.error e, tok, 1)
    | .ok newToken => (.ok newToken.Value, newToken, 1)
  else
    (.ok tok.Value, tok, 0)

/-- N GetToken calls as serialized by the instance mutex, all issued at the
same instant against the same token-endpoint behavior: the list of results,
the final cache state, and the total number of refresh requests performed. -/
def getTokenCalls : Nat → Token → Int → Bool → Option TokenResponse →
    List (Except String String) × Token × Nat
  | 0, tok, _, _, _ => ([], tok, 0)
  | n + 1, tok, now, nro, resp =>
    let r := GetToken tok now nro resp
    let rest := getTokenCalls n r.2.1 now nro resp
    (r.1 :: rest.1, rest.2.1, r.2.2 + rest.2.2)

/-! ## Theorems -/

/-- Helper: a GetToken call on a still-valid token is a pure cache hit. -/
theorem getToken_valid (tok : Token) (now : Int) (nro : Bool)
    (resp : Option TokenResponse) (h : ¬ tok.ExpiresAt < now) :
    GetToken tok now nro resp = (.ok tok.Value, tok, 0) := by
  simp [GetToken, timeAfter, h]

/-- Helper: serialized GetToken calls on a still-valid token all hit the
cache, perform no refresh, and leave the cache unchanged. -/
theorem getTokenCalls_valid (n : Nat) (tok : Token) (now : Int)
    (nro : Bool) (resp : Option TokenResponse) (h : ¬ tok.ExpiresAt < now) :
    getTokenCalls n tok now nro resp = (List.replicate n (.ok tok.Value), tok, 0) := by
  induction n with
  | zero => rfl
  | succ k ih =>
    simp [getTokenCalls, getToken_valid tok now nro resp h, ih, List.replicate_succ]

/-- Claim C7: GetToken refreshes exactly when the current instant is
strictly after the cached expiry; a token expiring exactly now, and any
still-valid token, is returned from the cache with no refresh request and an
unchanged cache. -/
theorem gettoken_refresh_iff (tok : Token) (now : Int) (nro : Bool)
    (resp : Option TokenResponse) :
    ((GetToken tok now nro resp).2.2 = 1 ↔ tok.ExpiresAt < now)
    ∧ (¬ tok.ExpiresAt < now → GetToken tok now nro resp = (.ok tok.Value, tok, 0))
    ∧ (tok.ExpiresAt = now → GetToken tok now nro resp = (.ok tok.Value, tok, 0)) := by
  by_cases h : tok.ExpiresAt < now
  · have hc : (GetToken tok now nro resp).2.2 = 1 := by
      rcases hr : requestNewToken nro resp with e | t <;>
        simp [GetToken, timeAfter, h, hr]
    exact ⟨⟨fun _ => h, fun _ => hc⟩, fun hn => absurd h hn,
           fun he => absurd (he ▸ h) (lt_irrefl now)⟩
  · have hG := getToken_valid tok now nro resp h
    refine ⟨⟨fun hc => ?_, fun hlt => absurd hlt h⟩, fun _ => hG, fun _ => hG⟩
    rw [hG] at hc
    simp at hc

/-- Claim C7 witness: a token expiring exactly at the current instant is
served from the cache with no refresh. -/
theorem gettoken_refresh_iff_witness :
    GetToken { Value := "cached", ExpiresAt := 5 } 5 true none
      = (.ok "cached", { Value := "cached", ExpiresAt := 5 }, 0) :=
  (gettoken_refresh_iff { Value := "cached", ExpiresAt := 5 } 5 true none).2.2 rfl

/-- Claim C6: with an expired cache entry, every refresh failure mode
(transport error, non-success HTTP status, malformed response body) makes
GetToken return an error while leaving the cached token completely
unchanged, and any later call that still finds the entry expired performs
the refresh again instead of replaying a cached result. -/
theorem failed_refresh_keeps_cache (tok : Token) (now : Int)
    (h : tok.ExpiresAt < now) :
    GetToken tok now true none = (.error "transport error", tok, 1)
    ∧ (∀ r : TokenResponse, r.statusCode ≠ 200 →
        GetToken tok now true (some r) = (.error "unexpected status code", tok, 1))
    ∧ (∀ r : TokenResponse, r.statusCode = 200 → r.body = none →
        GetToken tok now true (some r) = (.error "malformed response body", tok, 1))
    ∧ (∀ now2 nro2 resp2, tok.ExpiresAt < now2 →
        (GetToken tok now2 nro2 resp2).2.2 = 1) := by
  refine ⟨?_, ?_, ?_, ?_⟩
  · simp [GetToken, timeAfter, h, requestNewToken]
  · intro r hr
    simp [GetToken, timeAfter, h, requestNewToken, hr]
  · intro r hr hb
    simp [GetToken, timeAfter, h, requestNewToken, hr, hb]
  · intro now2 nro2 resp2 h2
    rcases hr : requestNewToken nro2 resp2 with e | t <;>
      simp [GetToken, timeAfter, h2, hr]

/-- Claim C6 witness: a 500 response leaves the stale cache entry intact. -/
theorem failed_refresh_keeps_cache_witness :
    GetToken { Value := "stale", ExpiresAt := 0 } 7 true
        (some { statusCode := 500, body := none })
      = (.error "unexpected status code", { Value := "stale", ExpiresAt := 0 }, 1) :=
  (failed_refresh_keeps_cache { Value := "stale", ExpiresAt := 0 } 7 (by decide)).2.1
    { statusCode := 500, body := none } (by decide)

/-- Claim C8: N serialized GetToken calls issued while the cache holds an
expired token, against an endpoint returning a fresh token, perform exactly
one refresh request; every call returns the same refreshed token value and
the cache ends holding that token. -/
theorem concurrent_gettoken_single_refresh (N : Nat) (hN : 1 ≤ N) (tok : Token)
    (now : Int) (v : String) (expiry : Int) (hexp : tok.ExpiresAt < now)
    (hfresh : now ≤ expiry) :
    getTokenCalls N tok now true (some { statusCode := 200, body := some (v, expiry) })
      = (List.replicate N (.ok v), { Value := v, ExpiresAt := expiry }, 1) := by
  obtain ⟨k, rfl⟩ : ∃ k, N = k + 1 := ⟨N - 1, by omega⟩
  have hG : GetToken tok now true (some { statusCode := 200, body := some (v, expiry) })
      = (.ok v, { Value := v, ExpiresAt := expiry }, 1) := by
    simp [GetToken, timeAfter, hexp, requestNewToken]
  have hne : ¬ (({ Value := v, ExpiresAt := expiry } : Token).ExpiresAt < now) := by
    show ¬ (expiry < now)
    omega
  have hrest := getTokenCalls_valid k { Value := v, ExpiresAt := expiry } now true
    (some { statusCode := 200, body := some (v, expiry) }) hne
  simp [getTokenCalls, hG, hrest, List.replicate_succ]

/-- Claim C8 witness: three serialized calls on an expired cache trigger one
refresh and all return the fresh token. -/
theorem concurrent_gettoken_single_refresh_witness :
    getTokenCalls 3 { Value := "old", ExpiresAt := 0 } 10 true
        (some { statusCode := 200, body := some ("fresh", 99) })
      = (List.replicate 3 (.ok "fresh"), { Value := "fresh", ExpiresAt := 99 }, 1) :=
  concurrent_gettoken_single_refresh 3 (by decide) { Value := "old", ExpiresAt := 0 }
    10 "fresh" 99 (by decide) (by decide)

/-- Claim C2 counterexample: a POST executor invocation that succeeds end to
end does not increment the total-request count, refuting "every invocation
increments the count exactly once regardless of outcome". -/
theorem post_does_not_increment_total :
    ¬ ((runOnce MethodPost NewMetrics (.ok requestEx) (.ok 100)).TotalRequests
        = NewMetrics.TotalRequests + 1) := by decide

/-- Claim C2 (amended): only a GET invocation whose request construction
succeeds increments the total-request count, and then exactly once whatever
the send outcome; a GET invocation whose request construction fails, and
every POST invocation, leave the count unchanged — and a token-acquisition
failure is one way request construction fails. -/
theorem total_requests_increment (m : Metrics) (r : Request)
    (dr : Except Unit Int) (cr : Except Unit Request) (s : String) (nro : Bool)
    (method url : String) :
    (runOnce MethodGet m (.ok r) dr).TotalRequests = m.TotalRequests + 1
    ∧ (runOnce MethodGet m (.error ()) dr).TotalRequests = m.TotalRequests
    ∧ (runOnce MethodPost m cr dr).TotalRequests = m.TotalRequests
    ∧ createRequest (some (.error s)) nro method url = .error () := by
  refine ⟨?_, ?_, ?_, ?_⟩
  · cases dr <;> rfl
  · cases dr <;> rfl
  · cases cr <;> cases dr <;> rfl
  · cases nro <;> rfl

/-- Claim C3 counterexample: a normally completed run with concurrency 1 and
one request per task, configured with method POST, records 0 total requests,
not 1 * 1. -/
theorem post_run_total_not_CR :
    ¬ ((runConsume MethodPost NewMetrics [(.ok requestEx, .ok 100)]).TotalRequests
        = 1 * 1) := by decide

/-- Helper: over a completed GET run, the total-request count grows by the
number of invocations whose request construction succeeded. -/
theorem runConsume_get_total (outcomes : List (Except Unit Request × Except Unit Int))
    (m : Metrics) :
    (runConsume MethodGet m outcomes).TotalRequests
      = m.TotalRequests + (outcomes.filter (fun o => isOkE o.1)).length := by
  induction outcomes generalizing m with
  | nil => rfl
  | cons o rest ih =>
    obtain ⟨cr, dr⟩ := o
    cases cr with
    | error u =>
      have h1 : runConsume MethodGet m ((Except.error u, dr) :: rest)
          = runConsume MethodGet m rest := rfl
      rw [h1, ih]
      simp [isOkE]
    | ok r =>
      have h1 : runConsume MethodGet m ((Except.ok r, dr) :: rest)
          = runConsume MethodGet (getExec m (Except.ok r) dr) rest := rfl
      have h2 : (getExec m (Except.ok r) dr).TotalRequests = m.TotalRequests + 1 := by
        cases dr <;> rfl
      rw [h1, ih, h2]
      simp [isOkE]
      omega

/-- Claim C3 (amended): for concurrency C ≥ 1 and requests-per-task R ≥ 1, a
run that completes normally with method GET and in which every request
construction succeeds records exactly C*R total request attempts, however
many of the sends succeeded or failed. -/
theorem completed_get_run_total (C R : Nat) (_hC : 1 ≤ C) (_hR : 1 ≤ R)
    (outcomes : List (Except Unit Request × Except Unit Int))
    (hlen : outcomes.length = C * R)
    (hok : ∀ o ∈ outcomes, isOkE o.1 = true) :
    (runConsume MethodGet NewMetrics outcomes).TotalRequests = C * R := by
  rw [runConsume_get_total, List.filter_eq_self.mpr hok, hlen]
  simp [NewMetrics]

/-- Claim C3 (amended) witness: concurrency 1, two requests per task, one
send failing, still records 2 total requests. -/
theorem completed_get_run_total_witness :
    1 ≤ 1 ∧ 1 ≤ 2
    ∧ (runConsume MethodGet NewMetrics
        [(.ok requestEx, .ok 5), (.ok requestEx, .error ())]).TotalRequests = 1 * 2 :=
  ⟨by decide, by decide,
    completed_get_run_total 1 2 (by decide) (by decide)
      [(.ok requestEx, .ok 5), (.ok requestEx, .error ())] (by decide) (by decide)⟩

/-- Claim C4: the POST path hands the literal method string "GET" to request
construction, and request construction always passes a nil body, so the
request a POST invocation issues has method "GET" — not POST — and carries
no body at all. -/
theorem post_request_is_get_without_body :
    postCreateRequest none true "https://example.com"
      = .ok { method := "GET", url := "https://example.com", body := none,
              headers := [("Content-Type", "application/json")] }
    ∧ "GET" ≠ MethodPost :=
  ⟨rfl, by decide⟩

/-- Claim C1: on a run cancelled before normal completion (all persistence
callbacks succeeding, no latencies recorded), the worker stores the status
sequence Created, Running, Finished, Failed — StatusFinished is stored after
cancellation by the unconditional post-select update, and the deferred final
update then stores StatusFailed after the terminal StatusFinished. -/
theorem cancelled_run_sets_finished_before_failed :
    storedStatuses (Start cancelledRun)
      = [StatusCreated, StatusRunning, StatusFinished, StatusFailed] := by decide

/-- Claim C5 counterexample: on the cancelled-before-any-work run the status
sequence is not Created, Running, Failed, and onMetricsReady is not
invoked. -/
theorem cancelled_run_claim_false :
    ¬ (storedStatuses (Start cancelledRun) = [StatusCreated, StatusRunning, StatusFailed]
       ∧ metricsCbInvoked (Start cancelledRun) = true) := by decide

/-- Claim C5 (amended): if the cancellation signal fires before any work
completes (no metrics recorded) and the status callbacks succeed, the run
stores Created, Running, Finished, Failed — an extra Finished before the
deferred Failed — and onMetricsReady is never invoked, because percentile
computation fails on the empty latency set before the metrics callback. -/
theorem cancelled_run_trace (w : StartInput) (h1 : w.cbRunning = true)
    (h2 : w.cancelled = true) (h3 : w.cbFinished = true)
    (h4 : w.runMetrics = NewMetrics) :
    storedStatuses (Start w)
      = [StatusCreated, StatusRunning, StatusFinished, StatusFailed]
    ∧ metricsCbInvoked (Start w) = false
    ∧ (Start w).finalMetrics = none := by
  have hp : CalculatePercentiles NewMetrics percentileRanks
      = (NewMetrics, some "Input must not be empty") := rfl
  have hS : Start w =
      { events := [Event.updateStatus StatusRunning true, Event.setStatus StatusRunning,
                   Event.spawn w.concurrency, Event.updateStatus StatusFinished true,
                   Event.setStatus StatusFinished,
                   Event.updateStatus StatusFailed w.cbFinal, Event.setStatus StatusFailed],
        finalMetrics := none, workerMetrics := NewMetrics } := by
    simp [Start, h1, h2, h3, h4, hp]
  rw [hS]
  refine ⟨rfl, rfl, rfl⟩

/-- Claim C5 (amended) witness: the concrete cancelled run. -/
theorem cancelled_run_trace_witness :
    storedStatuses (Start cancelledRun)
      = [StatusCreated, StatusRunning, StatusFinished, StatusFailed]
    ∧ metricsCbInvoked (Start cancelledRun) = false
    ∧ (Start cancelledRun).finalMetrics = none :=
  cancelled_run_trace cancelledRun rfl rfl rfl rfl

/-- Claim C9: if the initial updateStatusFunc(Running) callback fails, Start
returns at once: the only event is that failed callback invocation, no
worker pool is spawned, no status is stored (the worker keeps the initial
Created), and the metrics callback is never invoked. -/
theorem running_cb_failure_aborts (w : StartInput) (h : w.cbRunning = false) :
    Start w =
      { events := [Event.updateStatus StatusRunning false],
        finalMetrics := none, workerMetrics := w.runMetrics }
    ∧ storedStatuses (Start w) = [StatusCreated]
    ∧ spawned (Start w) = false
    ∧ metricsCbInvoked (Start w) = false := by
  have hS : Start w =
      { events := [Event.updateStatus StatusRunning false],
        finalMetrics := none, workerMetrics := w.runMetrics } := by
    simp [Start, h]
  rw [hS]
  exact ⟨rfl, rfl, rfl, rfl⟩

/-- Claim C9 witness: the concrete aborted run. -/
theorem running_cb_failure_aborts_witness :
    Start abortedRun =
      { events := [Event.updateStatus StatusRunning false],
        finalMetrics := none, workerMetrics := NewMetrics }
    ∧ storedStatuses (Start abortedRun) = [StatusCreated]
    ∧ spawned (Start abortedRun) = false
    ∧ metricsCbInvoked (Start abortedRun) = false :=
  running_cb_failure_aborts abortedRun rfl

/-- Claim C10: with an empty latency set, CalculatePercentiles returns an
error and writes no entries into the Percentiles map (the metrics value is
returned unchanged), and a run reaching the statistics step with no recorded
latencies returns before computing max latency or error rate — its worker
metrics are left untouched and updateMetricsFunc (onMetricsReady) is never
invoked. -/
theorem empty_latencies_no_metrics (m : Metrics) (hm : m.latencies = [])
    (w : StartInput) (h1 : w.cbRunning = true) (h2 : w.cbFinished = true)
    (h3 : w.runMetrics = m) :
    (CalculatePercentiles m percentileRanks).2 = some "Input must not be empty"
    ∧ (CalculatePercentiles m percentileRanks).1 = m
    ∧ metricsCbInvoked (Start w) = false
    ∧ (Start w).finalMetrics = none
    ∧ (Start w).workerMetrics = m := by
  have hp : CalculatePercentiles m percentileRanks = (m, some "Input must not be empty") := by
    obtain ⟨mx, mp, mt, mf, me, ml⟩ := m
    change ml = [] at hm
    subst hm
    rfl
  subst h3
  refine ⟨by rw [hp], by rw [hp], ?_, ?_, ?_⟩ <;>
    simp [Start, h1, h2, hp, metricsCbInvoked]

/-- Claim C10 witness: the concrete run with no recorded latencies. -/
theorem empty_latencies_no_metrics_witness :
    (CalculatePercentiles NewMetrics percentileRanks).2 = some "Input must not be empty"
    ∧ (CalculatePercentiles NewMetrics percentileRanks).1 = NewMetrics
    ∧ metricsCbInvoked (Start emptyRun) = false
    ∧ (Start emptyRun).finalMetrics = none
    ∧ (Start emptyRun).workerMetrics = NewMetrics :=
  empty_latencies_no_metrics NewMetrics rfl emptyRun rfl rfl rfl

end PerformanceAnalyzer
